import Mathlib

/-!
Verification of `megatron/model/chatglm3_model.py`.

A shallow embedding of the ChatGLM-3 model wrapper: the output-projection and
loss stage (`post_language_model_processing`), the forward-pass control flow of
`ChatGLM3Model.forward` (curriculum truncation and return structure), the
checkpoint state adapter (`state_dict_for_save_checkpoint` / `load_state_dict`),
the universal-checkpoint metadata reporter (`universal_checkpoint_info`), and
the standalone `CrossEntropy` function.

External collaborators (the tensor/sequence-parallel cross-entropy primitives,
`parallel_lm_logits`, the inner language model) are abstracted: they are taken
as parameters, or modelled from the spec at the level of detail (shape, dtype)
the claims need.
-/

set_option autoImplicit false

namespace ChatGLM3

/-- Floating-point dtype of a tensor: `half` is `torch.half` (float16),
`float32` is full precision (the result of `.float()`). -/
inductive Dtype where
  | half
  | float32
  deriving DecidableEq, Repr

/-- Which parallel vocabulary cross-entropy algorithm is invoked:
`seqParallel` is `sequence_parallel.vocab_sequence_parallel_cross_entropy`,
`tensorParallel` is `tensor_parallel.vocab_parallel_cross_entropy`. -/
inductive XentAlg where
  | seqParallel
  | tensorParallel
  deriving DecidableEq, Repr

/-- Errors surfaced by the embedded code: `precisionMismatch` is the
`assert output.dtype == torch.half` failure. -/
inductive Err where
  | precisionMismatch
  deriving DecidableEq, Repr

/-! ## Shape/dtype-level tensor model

For the claims about axis orientation, dtype promotion and algorithm selection
in `post_language_model_processing`, a tensor is its shape together with its
dtype; values are irrelevant to those claims. -/

/-- A tensor abstracted to its shape (list of axis sizes) and dtype. -/
structure Tens where
  shape : List ℕ
  dtype : Dtype
  deriving DecidableEq, Repr

/-- Python `t.transpose(0, 1)`: swap the first two axes. -/
def Tens.transpose01 (t : Tens) : Tens :=
  { t with shape := match t.shape with
      | a :: b :: rest => b :: a :: rest
      | s => s }

/-- Python `t.contiguous()`: identity at the shape/dtype level (a fresh
contiguous copy of the same logical tensor). -/
def Tens.contiguous (t : Tens) : Tens := t

/-- Python `t.float()`: promote to full precision. -/
def Tens.toFloat (t : Tens) : Tens := { t with dtype := Dtype.float32 }

/-- Modelled from the spec: `parallel_lm_logits`
(`megatron/model/language_model.py`, not under `src/`) projects hidden states
of shape `[s, b, h]` against the vocabulary weight into logits of shape
`[s, b, v]` (`v` the full or rank-local vocabulary size, per
`parallel_output`), preserving the input dtype. -/
def parallel_lm_logits (lm_output : Tens) (vocabDim : ℕ)
    (_parallel_output : Bool) : Tens :=
  match lm_output.shape with
  | s :: b :: _h :: [] => { shape := [s, b, vocabDim], dtype := lm_output.dtype }
  | sh => { shape := sh, dtype := lm_output.dtype }

/-- Modelled from the spec: both vocabulary cross-entropy primitives take
`(logits, labels)` and return a per-token loss of the same shape as the
labels (a floating tensor; we record the dtype the logits were passed in). -/
def vocab_cross_entropy (logits labels : Tens) : Tens :=
  { shape := labels.shape, dtype := logits.dtype }

/-- Record of an invocation of a parallel cross-entropy primitive: which
algorithm was called and the dtype of the logits it received. -/
structure XentCall where
  alg : XentAlg
  logitsDtype : Dtype
  deriving DecidableEq, Repr

/-- Shallow embedding of `post_language_model_processing` at the shape/dtype
level.  `worldSize` is `mpu.get_sequence_parallel_world_size()`.  Returns the
resulting tensor together with a record of the cross-entropy invocation, if
one happened; `Err.precisionMismatch` models the failing
`assert output.dtype == torch.half`. -/
def post_language_model_processing (worldSize : ℕ) (lm_output : Tens)
    (labels : Option Tens) (vocabDim : ℕ) (parallel_output : Bool)
    (fp16_lm_cross_entropy : Bool) : Except Err (Tens × Option XentCall) :=
  -- Output. Format [s b h]
  let output := parallel_lm_logits lm_output vocabDim parallel_output
  match labels with
  | none =>
      -- [s b h] => [b s h]
      Except.ok (output.transpose01.contiguous, none)
  | some labels =>
      -- [b s] => [s b]
      let labels := labels.transpose01.contiguous
      let alg := if worldSize > 1 then XentAlg.seqParallel
                 else XentAlg.tensorParallel
      if fp16_lm_cross_entropy then
        if output.dtype = Dtype.half then
          let loss := vocab_cross_entropy output labels
          -- [s b] => [b, s]
          Except.ok (loss.transpose01.contiguous,
                     some { alg := alg, logitsDtype := output.dtype })
        else
          Except.error Err.precisionMismatch
      else
        let loss := vocab_cross_entropy output.toFloat labels
        Except.ok (loss.transpose01.contiguous,
                   some { alg := alg, logitsDtype := output.toFloat.dtype })

/-! ## Value-level tensor model for the forward pass

For the curriculum-truncation and return-structure claims about
`ChatGLM3Model.forward`, a `[batch, seq]` tensor is a list of rows and the
`[1, 1, seq, seq]` attention mask is a rank-4 nested list; the inner language
model and the post-processing stage are abstract parameters. -/

/-- A `[batch, seq]` integer tensor as a list of rows. -/
abbrev Mat (α : Type) : Type := List (List α)

/-- A `[1, 1, seq, seq]` attention mask as a rank-4 nested list. -/
abbrev Mask4 (α : Type) : Type := List (List (List (List α)))

/-- Python `t.size()[1]`: the length of the second axis (all rows have equal
length in a real tensor; we read the length of the first row). -/
def Mat.size1 {α : Type} (m : Mat α) : ℕ := (m.headD []).length

/-- Python `t[:, :c].contiguous()`: truncate each row to its first `c`
entries. -/
def Mat.truncTo {α : Type} (c : ℕ) (m : Mat α) : Mat α := m.map (List.take c)

/-- Python `t[:, :, :c, :c].contiguous()`: truncate the two trailing axes to
`c`. -/
def Mask4.truncTo {α : Type} (c : ℕ) (m : Mask4 α) : Mask4 α :=
  m.map (List.map (fun sq => (sq.take c).map (List.take c)))

/-- The fields of the process-wide `args` object that `forward` reads or
writes. -/
structure Args where
  curriculum_seqlen : ℕ
  curriculum_learning_legacy : Bool
  seq_length : ℕ
  deriving DecidableEq, Repr

/-- The inputs `forward` hands to the inner language-model stage, together
with the updated `args`. -/
structure ForwardInputs (α : Type) where
  args : Args
  input_ids : Mat α
  position_ids : Mat α
  labels : Option (Mat α)
  attention_mask : Mask4 α
  deriving DecidableEq, Repr

/-- The input-preparation block of `ChatGLM3Model.forward`: curriculum
truncation (when a curriculum length shorter than the sequence length is
supplied) and the legacy-mode reset of `args.curriculum_seqlen`. -/
def forward_inputs {α : Type} (args : Args) (input_ids position_ids : Mat α)
    (attention_mask : Mask4 α) (labels : Option (Mat α))
    (curriculum_seqlen : Option ℕ) : ForwardInputs α :=
  match curriculum_seqlen with
  | some c =>
      let args := { args with curriculum_seqlen := c }
      if c < input_ids.size1 then
        { args := args
          input_ids := input_ids.truncTo c
          position_ids := position_ids.truncTo c
          labels := labels.map (Mat.truncTo c)
          attention_mask := attention_mask.truncTo c }
      else
        { args := args, input_ids := input_ids, position_ids := position_ids
          labels := labels, attention_mask := attention_mask }
  | none =>
      let args := if args.curriculum_learning_legacy then
          { args with curriculum_seqlen := args.seq_length }
        else args
      { args := args, input_ids := input_ids, position_ids := position_ids
        labels := labels, attention_mask := attention_mask }

/-- Statement that `rr` is `ro[:c]` as a fresh value: length
`min c (length ro)` and entries below `c` agreeing with `ro`. -/
def TruncatedRow {α : Type} (c : ℕ) (ro rr : List α) : Prop :=
  rr.length = min c ro.length ∧ ∀ j : ℕ, j < c → rr[j]? = ro[j]?

/-- Statement that `res` is `orig[:, :c]`: same batch size, every row
truncated to `c`. -/
def TruncatedMat {α : Type} (c : ℕ) (orig res : Mat α) : Prop :=
  res.length = orig.length ∧
  ∀ (i : ℕ) (ro : List α), orig[i]? = some ro →
    ∃ rr, res[i]? = some rr ∧ TruncatedRow c ro rr

/-- Statement that `r2` is `o2[:c, :c]`: first `c` rows kept, each truncated
to `c`. -/
def TruncatedSquare {α : Type} (c : ℕ) (o2 r2 : List (List α)) : Prop :=
  r2.length = min c o2.length ∧
  ∀ (j : ℕ) (row : List α), j < c → o2[j]? = some row →
    ∃ rrow, r2[j]? = some rrow ∧ TruncatedRow c row rrow

/-- Statement that `res` is `orig[:, :, :c, :c]`: leading two axes
untouched, both trailing sequence axes truncated to `c`. -/
def TruncatedMask {α : Type} (c : ℕ) (orig res : Mask4 α) : Prop :=
  res.length = orig.length ∧
  ∀ (i : ℕ) (o1 : List (List (List α))), orig[i]? = some o1 →
    ∃ r1, res[i]? = some r1 ∧ r1.length = o1.length ∧
      ∀ (k : ℕ) (o2 : List (List α)), o1[k]? = some o2 →
        ∃ r2, r1[k]? = some r2 ∧ TruncatedSquare c o2 r2

/-- One element of the Python tuple `forward` returns: either the (possibly
post-processed) language-model output or the MoE-loss collection. -/
inductive RetElem (H M : Type) where
  | out (h : H)
  | moe (m : M)
  deriving DecidableEq, Repr

/-- Shallow embedding of `ChatGLM3Model.forward`.  `language_model` is the
inner embedding+transformer stage; `post_processing` abstracts the call to
`post_language_model_processing` (the weight choice and flags are fixed per
instance).  The returned list is the Python tuple of the `return` statement:
`return lm_output, moe_losses if self.return_moe_loss else lm_output`. -/
def ChatGLM3Model.forward {α H M : Type}
    (language_model : Mat α → Mat α → Mask4 α → H × M)
    (post_processing : H → Option (Mat α) → H)
    (post_process return_moe_loss : Bool)
    (args : Args) (input_ids position_ids : Mat α) (attention_mask : Mask4 α)
    (labels : Option (Mat α)) (curriculum_seqlen : Option ℕ) :
    Args × List (RetElem H M) :=
  let fi := forward_inputs args input_ids position_ids attention_mask labels
    curriculum_seqlen
  let res := language_model fi.input_ids fi.position_ids fi.attention_mask
  let lm_output := res.1
  let moe_losses := res.2
  let lm_output := if post_process then post_processing lm_output fi.labels
    else lm_output
  (fi.args,
   [RetElem.out lm_output,
    if return_moe_loss then RetElem.moe moe_losses else RetElem.out lm_output])

/-! ## Checkpoint state adapter

State dicts are modelled as insertion-ordered association lists from string
keys to values; a value is either a tensor blob (abstracted to a numeric id)
or a nested dict. -/

/-- A checkpoint state-dict value: a tensor blob (abstract id) or a nested
dict (insertion-ordered association list). -/
inductive SD where
  | tensor (id : ℕ)
  | dict (entries : List (String × SD))

/-- The entries of a dict value (the source only ever iterates values that
are dicts). -/
def SD.asDict : SD → List (String × SD)
  | SD.dict es => es
  | SD.tensor _ => []

/-- Python `del d[k]` on an association list. -/
def eraseKey (k : String) (l : List (String × SD)) : List (String × SD) :=
  l.filter (fun kv => !(kv.1 == k))

/-- Python `d[k] = v` on an association list: replace in place if the key
exists, else append (Python dict insertion-order semantics). -/
def setKey (k : String) (v : SD) (l : List (String × SD)) : List (String × SD) :=
  if (l.lookup k).isSome then
    l.map (fun kv => if kv.1 == k then (k, v) else kv)
  else l ++ [(k, v)]

/-- Python `needle in hay` on `List Char` (contiguous-sublist
containment). -/
def listContains (needle : List Char) : List Char → Bool
  | [] => needle.isEmpty
  | c :: rest => needle.isPrefixOf (c :: rest) || listContains needle rest

/-- The Python substring test `needle in hay` on strings. -/
def strContains (needle hay : String) : Bool :=
  listContains needle.toList hay.toList

/-- Modelled from the spec: the fixed language-model checkpoint key
(`self._language_model_key`, set by `get_language_model` in
`megatron/model/language_model.py`, not under `src/`). -/
def languageModelKey : String := "language_model"

/-- Modelled from the spec: the fixed head word-embedding checkpoint key
(`self._word_embeddings_for_head_key`, set by `MegatronModule` in
`megatron/model/module.py`, not under `src/`). -/
def wordEmbeddingsForHeadKey : String := "word_embeddings_for_head"

/-- The `"moe_state_dict"` key used by `state_dict_for_save_checkpoint` and
`load_state_dict`. -/
def moeStateDictKey : String := "moe_state_dict"

/-- The `expert` marker substring tested by `load_state_dict`. -/
def expertMarker : String := "expert"

/-- The `moe.gate.wg.weight` gate-weight marker excluded by
`load_state_dict`. -/
def gateKeyMarker : String := "moe.gate.wg.weight"

/-- The per-instance state `state_dict_for_save_checkpoint` and
`load_state_dict` consult: the pipeline position, the tie flag, and the
own state dict of the word-embedding module. -/
structure Model where
  pre_process : Bool
  post_process : Bool
  untie_embeddings_and_output_weights : Bool
  word_embeddings_sd : List (String × SD)

/-- Shallow embedding of `ChatGLM3Model.state_dict_for_save_checkpoint`.
`language_model_state_dict` is what
`self.language_model.state_dict_for_save_checkpoint(...)` returned. -/
def state_dict_for_save_checkpoint (m : Model)
    (language_model_state_dict : List (String × SD)) : List (String × SD) :=
  let hoistAndRest :=
    match language_model_state_dict.lookup moeStateDictKey with
    | some moe => (moe.asDict, eraseKey moeStateDictKey language_model_state_dict)
    | none => ([], language_model_state_dict)
  let base := hoistAndRest.1 ++ [(languageModelKey, SD.dict hoistAndRest.2)]
  if m.post_process && !m.pre_process
      && !m.untie_embeddings_and_output_weights then
    base ++ [(wordEmbeddingsForHeadKey, SD.dict m.word_embeddings_sd)]
  else base

/-- The predicate (`expert` in key, and `moe.gate.wg.weight` not in key)
used by `load_state_dict` to collect MoE entries. -/
def isExpertEntry (kv : String × SD) : Bool :=
  strContains expertMarker kv.1 && !(strContains gateKeyMarker kv.1)

/-- Shallow embedding of `ChatGLM3Model.load_state_dict`.  Returns the
sub-state loaded into `self.word_embeddings` (if that branch ran) and the
dict handed to `self.language_model.load_state_dict`; `Except.error` models
the `KeyError` when the head key is demanded but absent. -/
def load_state_dict (m : Model) (state_dict : List (String × SD)) :
    Except String (Option SD × List (String × SD)) :=
  let headStep : Except String (Option SD) :=
    if m.post_process && !m.pre_process
        && !m.untie_embeddings_and_output_weights then
      match state_dict.lookup wordEmbeddingsForHeadKey with
      | some sd => Except.ok (some sd)
      | none => Except.error "KeyError: word_embeddings_for_head"
    else Except.ok none
  match headStep with
  | Except.error e => Except.error e
  | Except.ok headLoaded =>
      let moe_state_dict := state_dict.filter isExpertEntry
      let rest := state_dict.filter (fun kv => !(isExpertEntry kv))
      let inner := match rest.lookup languageModelKey with
        | some sd => sd.asDict
        | none => rest
      let inner := if 0 < moe_state_dict.length then
          setKey moeStateDictKey (SD.dict moe_state_dict) inner
        else inner
      Except.ok (headLoaded, inner)

/-! ## Standalone `CrossEntropy`

Value-level model: logits are opaque (only their dtype matters to this
function), labels and the loss mask are `Fin`-indexed matrices, and the
external `vocab_parallel_cross_entropy` primitive is a parameter producing
the per-token losses.  A `none` result models a non-finite IEEE value (the
unguarded division by a zero mask sum). -/

/-- A logits tensor abstracted to its dtype and an opaque identity. -/
structure Logits where
  dtype : Dtype
  uid : ℕ
  deriving DecidableEq, Repr

/-- Python `t.contiguous()` on logits: identity at this level. -/
def Logits.contiguous (l : Logits) : Logits := l

/-- Python `t.float()` on logits: promote to full precision. -/
def Logits.toFloat (l : Logits) : Logits := { l with dtype := Dtype.float32 }

/-- A `[rows, cols]` matrix as a function on index pairs. -/
def MatF (rows cols : ℕ) (α : Type) : Type := Fin rows → Fin cols → α

/-- Python `t.transpose(0, 1)` on a `Fin`-indexed matrix. -/
def transposeF {rows cols : ℕ} {α : Type} (m : MatF rows cols α) :
    MatF cols rows α := fun i j => m j i

/-- Shallow embedding of the standalone `CrossEntropy` function.
`vocab_parallel_cross_entropy` and `vocab_sequence_parallel_cross_entropy`
are the two external primitives; `worldSize` is the sequence-parallel world
size and `fp16_lm_cross_entropy` the half-precision-loss configuration — the
source never consults any of these three (it fetches `args` and ignores it,
and hard-codes the tensor-parallel primitive on `.float()`-promoted logits).
The result is `none` when `loss_mask.sum()` is zero (IEEE division by zero:
NaN), else the masked mean. -/
def CrossEntropy {b s : ℕ} (_worldSize : ℕ) (_fp16_lm_cross_entropy : Bool)
    (vocab_parallel_cross_entropy : Logits → MatF s b ℤ → MatF s b ℚ)
    (_vocab_sequence_parallel_cross_entropy : Logits → MatF s b ℤ → MatF s b ℚ)
    (output : Logits) (labels : MatF b s ℤ) (loss_mask : MatF b s ℚ) :
    Option ℚ :=
  -- [b s] => [s b]
  let labelsT := transposeF labels
  let losses := vocab_parallel_cross_entropy (output.contiguous.toFloat) labelsT
  -- [s b] => [b, s]
  let lossesB := transposeF losses
  let num := ∑ i : Fin b, ∑ j : Fin s, lossesB i j * loss_mask i j
  let den := ∑ i : Fin b, ∑ j : Fin s, loss_mask i j
  if den = 0 then none else some (num / den)

/-! ## Universal-checkpoint metadata reporter -/

/-- The three category labels imported from `deepspeed.checkpoint` (external
constants; opaque here). -/
inductive UCKey where
  | vocabularyParams
  | tpReplicatedParams
  | rowParallelismParams
  deriving DecidableEq, Repr

/-- Shallow embedding of `ChatGLM3Model.universal_checkpoint_info`.
`dsUniversalCheckpointInfo` is the module-level availability flag
`DS_UNIVERSAL_CHECKPOINT_INFO` (whether the `deepspeed.checkpoint` constants
imported successfully). -/
def universal_checkpoint_info (dsUniversalCheckpointInfo : Bool) :
    List (UCKey × List String) :=
  if dsUniversalCheckpointInfo then
    [(UCKey.vocabularyParams,
      ["tied_modules.embed.word_embeddings.weight"]),
     (UCKey.tpReplicatedParams,
      ["tied_modules.embed.position_embeddings.weight",
       "\\d+.input_layernorm.weight",
       "\\d+.input_layernorm.bias",
       "\\d+.post_attention_layernorm.weight",
       "\\d+.post_attention_layernorm.bias",
       "\\d+.self_attention.dense.bias",
       "\\d+.mlp.dense_4h_to_h.bias",
       "\\d+.weight",
       "\\d+.bias"]),
     (UCKey.rowParallelismParams,
      ["\\d+.mlp.dense_4h_to_h.weight",
       "\\d+.self_attention.dense.weight"])]
  else []

/-! ## Helper lemmas -/

theorem truncatedRow_take {α : Type} (c : ℕ) (l : List α) :
    TruncatedRow c l (l.take c) := by
  exact ⟨by simp, fun j hj => List.getElem?_take_of_lt hj⟩

theorem truncatedMat_truncTo {α : Type} (c : ℕ) (m : Mat α) :
    TruncatedMat c m (m.truncTo c) := by
  refine ⟨by simp [Mat.truncTo], fun i ro hro => ?_⟩
  exact ⟨ro.take c, by simp [Mat.truncTo, List.getElem?_map, hro],
         truncatedRow_take c ro⟩

theorem truncatedSquare_take {α : Type} (c : ℕ) (sq : List (List α)) :
    TruncatedSquare c sq ((sq.take c).map (List.take c)) := by
  refine ⟨by simp, fun j row hj hrow => ?_⟩
  refine ⟨row.take c, ?_, truncatedRow_take c row⟩
  rw [List.getElem?_map, List.getElem?_take_of_lt hj, hrow]
  rfl

theorem truncatedMask_truncTo {α : Type} (c : ℕ) (m : Mask4 α) :
    TruncatedMask c m (m.truncTo c) := by
  refine ⟨by simp [Mask4.truncTo], fun i o1 h1 => ?_⟩
  refine ⟨o1.map (fun sq => (sq.take c).map (List.take c)),
          by simp [Mask4.truncTo, List.getElem?_map, h1], by simp,
          fun k o2 h2 => ?_⟩
  exact ⟨(o2.take c).map (List.take c),
         by simp [List.getElem?_map, h2], truncatedSquare_take c o2⟩

theorem lookup_eq_none_of_ne (k : String) (l : List (String × SD))
    (h : ∀ kv ∈ l, kv.1 ≠ k) : l.lookup k = none := by
  induction l with
  | nil => rfl
  | cons kv t ih =>
      have hk : (k == kv.1) = false := by
        simpa [beq_iff_eq] using fun he => h kv (by simp) he.symm
      simp only [List.lookup, hk]
      exact ih fun x hx => h x (by simp [hx])

theorem lookup_eraseKey_ne (e k : String) (l : List (String × SD))
    (h : k ≠ e) : (eraseKey e l).lookup k = l.lookup k := by
  induction l with
  | nil => rfl
  | cons kv t ih =>
      by_cases hkv : kv.1 = e
      · have h1 : (kv.1 == e) = true := by simpa [beq_iff_eq] using hkv
        have h2 : (k == kv.1) = false := by
          simpa [beq_iff_eq] using fun he : k = kv.1 => h (he ▸ hkv)
        simp only [eraseKey, List.filter_cons, h1, Bool.not_true, List.lookup,
          h2]
        exact ih
      · have h1 : (kv.1 == e) = false := by simpa [beq_iff_eq] using hkv
        simp only [eraseKey, List.filter_cons, h1, Bool.not_false, List.lookup]
        cases hk : k == kv.1
        · exact ih
        · rfl

theorem lookup_eraseKey_self (e : String) (l : List (String × SD)) :
    (eraseKey e l).lookup e = none := by
  refine lookup_eq_none_of_ne e _ fun kv hkv => ?_
  have := List.of_mem_filter hkv
  simpa [beq_iff_eq] using this

theorem strContains_expert_ne_head (k : String)
    (h : strContains expertMarker k = true) : k ≠ wordEmbeddingsForHeadKey := by
  intro he
  subst he
  exact absurd h (by decide)

theorem strContains_expert_ne_lm (k : String)
    (h : strContains expertMarker k = true) : k ≠ languageModelKey := by
  intro he
  subst he
  exact absurd h (by decide)

theorem isExpertEntry_lm (x : SD) :
    isExpertEntry (languageModelKey, x) = false := rfl

theorem isExpertEntry_head (x : SD) :
    isExpertEntry (wordEmbeddingsForHeadKey, x) = false := rfl

/-! ## Claim theorems -/

/-- C9: `universal_checkpoint_info` returns the empty mapping when
universal-checkpoint info is unavailable, and otherwise a mapping with
exactly the three category keys, whose values are the literal ordered
pattern lists: one vocabulary pattern, nine tensor-parallel-replicated
patterns, and two row-parallelism patterns.  (Totality and absence of side
effects are inherent: it is a plain function of the availability flag.) -/
theorem universal_checkpoint_info_contract :
    universal_checkpoint_info false = []
    ∧ (universal_checkpoint_info true).map Prod.fst
        = [UCKey.vocabularyParams, UCKey.tpReplicatedParams,
           UCKey.rowParallelismParams]
    ∧ (universal_checkpoint_info true).lookup UCKey.vocabularyParams
        = some ["tied_modules.embed.word_embeddings.weight"]
    ∧ (universal_checkpoint_info true).lookup UCKey.tpReplicatedParams
        = some ["tied_modules.embed.position_embeddings.weight",
                "\\d+.input_layernorm.weight",
                "\\d+.input_layernorm.bias",
                "\\d+.post_attention_layernorm.weight",
                "\\d+.post_attention_layernorm.bias",
                "\\d+.self_attention.dense.bias",
                "\\d+.mlp.dense_4h_to_h.bias",
                "\\d+.weight",
                "\\d+.bias"]
    ∧ (universal_checkpoint_info true).lookup UCKey.rowParallelismParams
        = some ["\\d+.mlp.dense_4h_to_h.weight",
                "\\d+.self_attention.dense.weight"]
    ∧ ((universal_checkpoint_info true).lookup UCKey.vocabularyParams).map
          List.length = some 1
    ∧ ((universal_checkpoint_info true).lookup UCKey.tpReplicatedParams).map
          List.length = some 9
    ∧ ((universal_checkpoint_info true).lookup UCKey.rowParallelismParams).map
          List.length = some 2 :=
  ⟨rfl, rfl, rfl, rfl, rfl, rfl, rfl, rfl⟩

/-- C5: with labels present, `post_language_model_processing` records exactly
one cross-entropy invocation, whose algorithm is the sequence-parallel one
precisely when the sequence-parallel world size exceeds 1, and the standard
tensor-parallel one precisely when it is at most 1. -/
theorem post_lm_xent_selection
    (worldSize : ℕ) (lm_output labels : Tens) (vocabDim : ℕ)
    (parallel_output fp16_lm_cross_entropy : Bool) (t : Tens)
    (c : Option XentCall)
    (h : post_language_model_processing worldSize lm_output (some labels)
        vocabDim parallel_output fp16_lm_cross_entropy = Except.ok (t, c)) :
    ∃ call, c = some call
      ∧ (call.alg = XentAlg.seqParallel ↔ 1 < worldSize)
      ∧ (call.alg = XentAlg.tensorParallel ↔ worldSize ≤ 1) := by
  simp only [post_language_model_processing, gt_iff_lt] at h
  by_cases hws : 1 < worldSize <;>
    cases fp16_lm_cross_entropy <;>
    simp only [hws, if_true, if_false, Bool.false_eq_true, ite_true,
      ite_false] at h
  case pos.false =>
    obtain ⟨-, hc⟩ := Prod.mk.injEq .. ▸ Except.ok.injEq .. ▸ h
    exact ⟨_, hc.symm, by simp [hws], by simp [hws, Nat.not_lt.mp]⟩
  case pos.true =>
    split at h
    · obtain ⟨-, hc⟩ := Prod.mk.injEq .. ▸ Except.ok.injEq .. ▸ h
      exact ⟨_, hc.symm, by simp [hws], by simp [hws]⟩
    · exact absurd h (by simp)
  case neg.false =>
    obtain ⟨-, hc⟩ := Prod.mk.injEq .. ▸ Except.ok.injEq .. ▸ h
    exact ⟨_, hc.symm, by simp [hws], by simpa [hws] using Nat.not_lt.mp hws⟩
  case neg.true =>
    split at h
    · obtain ⟨-, hc⟩ := Prod.mk.injEq .. ▸ Except.ok.injEq .. ▸ h
      exact ⟨_, hc.symm, by simp [hws], by simpa [hws] using Nat.not_lt.mp hws⟩
    · exact absurd h (by simp)

/-- Witness for C5 at world size 4 (sequence-parallel chosen). -/
theorem post_lm_xent_selection_witness :
    ∃ call,
      (some (XentCall.mk XentAlg.seqParallel Dtype.float32) : Option XentCall)
          = some call
      ∧ (call.alg = XentAlg.seqParallel ↔ 1 < 4)
      ∧ (call.alg = XentAlg.tensorParallel ↔ 4 ≤ 1) :=
  post_lm_xent_selection 4 ⟨[2, 3, 5], Dtype.half⟩ ⟨[3, 2], Dtype.half⟩ 7
    true false ⟨[3, 2], Dtype.float32⟩
    (some ⟨XentAlg.seqParallel, Dtype.float32⟩) rfl

/-- C6: with the half-precision-loss flag set and labels present, if the
projected logits are not half precision the call fails with the
precision-mismatch assertion; with the flag unset, the logits are promoted
to full precision for the cross-entropy call and no assertion occurs. -/
theorem post_lm_precision_guard
    (worldSize : ℕ) (lm_output labels : Tens) (vocabDim : ℕ)
    (parallel_output : Bool) :
    ((parallel_lm_logits lm_output vocabDim parallel_output).dtype
          ≠ Dtype.half →
      post_language_model_processing worldSize lm_output (some labels)
          vocabDim parallel_output true = Except.error Err.precisionMismatch)
    ∧ ∃ t call,
        post_language_model_processing worldSize lm_output (some labels)
            vocabDim parallel_output false = Except.ok (t, some call)
          ∧ call.logitsDtype = Dtype.float32 := by
  constructor
  · intro hdt
    simp [post_language_model_processing, hdt]
  · exact ⟨_, _, rfl, rfl⟩

/-- Witness for C6 on full-precision logits. -/
theorem post_lm_precision_guard_witness :
    (post_language_model_processing 1 ⟨[2, 3, 5], Dtype.float32⟩
        (some ⟨[3, 2], Dtype.float32⟩) 7 true true
        = Except.error Err.precisionMismatch)
    ∧ ∃ t call,
        post_language_model_processing 1 ⟨[2, 3, 5], Dtype.float32⟩
            (some ⟨[3, 2], Dtype.float32⟩) 7 true false
          = Except.ok (t, some call)
          ∧ call.logitsDtype = Dtype.float32 := by
  have h := post_lm_precision_guard 1 ⟨[2, 3, 5], Dtype.float32⟩
    ⟨[3, 2], Dtype.float32⟩ 7 true
  exact ⟨h.1 (by decide), h.2⟩

/-- C7: on a `[s, b, h]` hidden state, `post_language_model_processing`
returns `[b, s, v]` logits when labels are absent, and a `[b, s]` per-token
loss when labels of shape `[b, s]` are given and the call succeeds. -/
theorem post_lm_orientation
    (worldSize s b hdim vocabDim : ℕ) (dt : Dtype)
    (parallel_output fp16 : Bool) :
    (post_language_model_processing worldSize ⟨[s, b, hdim], dt⟩ none vocabDim
        parallel_output fp16
        = Except.ok (⟨[b, s, vocabDim], dt⟩, none))
    ∧ (∀ (labels t : Tens) (c : Option XentCall),
        labels.shape = [b, s] →
        post_language_model_processing worldSize ⟨[s, b, hdim], dt⟩
            (some labels) vocabDim parallel_output fp16 = Except.ok (t, c) →
        t.shape = [b, s]) := by
  constructor
  · rfl
  · intro labels t c hsh h
    obtain ⟨lsh, ldt⟩ := labels
    simp only [Tens.shape] at hsh
    subst hsh
    cases fp16 <;>
      simp only [post_language_model_processing, parallel_lm_logits,
        vocab_cross_entropy, Tens.transpose01, Tens.contiguous, Tens.toFloat,
        Bool.false_eq_true, ite_true, ite_false] at h
    · obtain ⟨ht, -⟩ := Prod.mk.injEq .. ▸ Except.ok.injEq .. ▸ h
      simp [← ht]
    · split at h
      · obtain ⟨ht, -⟩ := Prod.mk.injEq .. ▸ Except.ok.injEq .. ▸ h
        simp [← ht]
      · exact absurd h (by simp)

/-- Witness for C7 at `s = 2`, `b = 3`, `h = 5`, `v = 7`. -/
theorem post_lm_orientation_witness :
    (post_language_model_processing 1 ⟨[2, 3, 5], Dtype.half⟩ none 7 true false
        = Except.ok (⟨[3, 2, 7], Dtype.half⟩, none))
    ∧ (Tens.mk [3, 2] Dtype.float32).shape = [3, 2] := by
  have h := post_lm_orientation 1 2 3 5 7 Dtype.half true false
  exact ⟨h.1, h.2 ⟨[3, 2], Dtype.half⟩ ⟨[3, 2], Dtype.float32⟩
    (some ⟨XentAlg.tensorParallel, Dtype.float32⟩) rfl rfl⟩

/-- C1 counterexample: with `return_moe_loss` unset, `forward` does not
return the single-element tuple `(output,)`: the conditional-expression
precedence in `return lm_output, moe_losses if self.return_moe_loss else
lm_output` makes it return the pair `(output, output)`. -/
theorem forward_return_counterexample :
    (ChatGLM3Model.forward (fun _ _ _ => ((7 : ℕ), (9 : ℕ))) (fun h _ => h)
        false false ⟨0, false, 0⟩ [[1]] [[2]] [[[[0]]]] none none).2
      = [RetElem.out 7, RetElem.out 7]
    ∧ (ChatGLM3Model.forward (fun _ _ _ => ((7 : ℕ), (9 : ℕ))) (fun h _ => h)
        false false ⟨0, false, 0⟩ [[1]] [[2]] [[[[0]]]] none none).2
      ≠ [RetElem.out 7] := by
  constructor <;> decide

/-- C1 amended: `forward` always returns a two-element tuple whose first
element is the (possibly post-processed) output; when `return_moe_loss` is
set the second element is the MoE-loss collection, and when it is unset the
second element is the output itself — never a one-element tuple. -/
theorem forward_return_structure {α H M : Type}
    (language_model : Mat α → Mat α → Mask4 α → H × M)
    (post_processing : H → Option (Mat α) → H)
    (post_process return_moe_loss : Bool)
    (args : Args) (input_ids position_ids : Mat α) (attention_mask : Mask4 α)
    (labels : Option (Mat α)) (curriculum_seqlen : Option ℕ)
    (r : Args × List (RetElem H M))
    (hr : ChatGLM3Model.forward language_model post_processing post_process
        return_moe_loss args input_ids position_ids attention_mask labels
        curriculum_seqlen = r) :
    r.2.length = 2
    ∧ (∃ o, r.2.head? = some (RetElem.out o))
    ∧ (return_moe_loss = true →
        ∃ o mo, r.2 = [RetElem.out o, RetElem.moe mo])
    ∧ (return_moe_loss = false →
        ∃ o, r.2 = [RetElem.out o, RetElem.out o]) := by
  subst hr
  cases return_moe_loss <;>
    simp [ChatGLM3Model.forward]

/-- Witness for C1 amended, with `return_moe_loss` set. -/
theorem forward_return_structure_witness :
    (((⟨0, false, 0⟩ : Args),
        [RetElem.out (7 : ℕ), RetElem.moe (9 : ℕ)]).2.length = 2)
    ∧ (∃ o, ((⟨0, false, 0⟩ : Args),
        [RetElem.out (7 : ℕ), RetElem.moe (9 : ℕ)]).2.head?
          = some (RetElem.out o))
    ∧ (true = true →
        ∃ o mo, ((⟨0, false, 0⟩ : Args),
          [RetElem.out (7 : ℕ), RetElem.moe (9 : ℕ)]).2
            = [RetElem.out o, RetElem.moe mo])
    ∧ (true = false →
        ∃ o, ((⟨0, false, 0⟩ : Args),
          [RetElem.out (7 : ℕ), RetElem.moe (9 : ℕ)]).2
            = [RetElem.out o, RetElem.out o]) :=
  forward_return_structure (fun _ _ _ => ((7 : ℕ), (9 : ℕ))) (fun h _ => h)
    false true ⟨0, false, 0⟩ [[1]] [[2]] [[[[0]]]] none none
    (⟨0, false, 0⟩, [RetElem.out 7, RetElem.moe 9]) rfl

/-- C8: when a curriculum length `c` smaller than the sequence length is
supplied, the input preparation of `forward` truncates input ids, position
ids
and labels (when present) to their first `c` sequence positions and the
attention mask to `c` along both trailing axes; when `c` is at least the
sequence length, every input passes through unchanged. -/
theorem forward_inputs_curriculum {α : Type} (args : Args)
    (input_ids position_ids : Mat α) (attention_mask : Mask4 α)
    (labels : Option (Mat α)) (c : ℕ) :
    (c < input_ids.size1 →
      TruncatedMat c input_ids
        (forward_inputs args input_ids position_ids attention_mask labels
          (some c)).input_ids
      ∧ TruncatedMat c position_ids
          (forward_inputs args input_ids position_ids attention_mask labels
            (some c)).position_ids
      ∧ (∀ l, labels = some l →
          ∃ lt, (forward_inputs args input_ids position_ids attention_mask
              labels (some c)).labels = some lt ∧ TruncatedMat c l lt)
      ∧ (labels = none →
          (forward_inputs args input_ids position_ids attention_mask labels
            (some c)).labels = none)
      ∧ TruncatedMask c attention_mask
          (forward_inputs args input_ids position_ids attention_mask labels
            (some c)).attention_mask
      ∧ (forward_inputs args input_ids position_ids attention_mask labels
          (some c)).args = { args with curriculum_seqlen := c })
    ∧ (input_ids.size1 ≤ c →
      forward_inputs args input_ids position_ids attention_mask labels
          (some c)
        = { args := { args with curriculum_seqlen := c },
            input_ids := input_ids, position_ids := position_ids,
            labels := labels, attention_mask := attention_mask }) := by
  constructor
  · intro hc
    simp only [forward_inputs, hc, ite_true]
    refine ⟨truncatedMat_truncTo c input_ids,
            truncatedMat_truncTo c position_ids, ?_, ?_,
            truncatedMask_truncTo c attention_mask, by trivial⟩
    · intro l hl
      subst hl
      exact ⟨l.truncTo c, rfl, truncatedMat_truncTo c l⟩
    · intro hl
      subst hl
      rfl
  · intro hc
    simp [forward_inputs, Nat.not_lt.mpr hc]

/-- Witness for C8 at sequence length 3 truncated to 2. -/
theorem forward_inputs_curriculum_witness :
    2 < Mat.size1 ([[1, 2, 3]] : Mat ℕ)
    ∧ TruncatedMat 2 [[1, 2, 3]]
        (forward_inputs ⟨0, false, 0⟩ [[1, 2, 3]] [[4, 5, 6]]
          [[[[1, 1, 1], [1, 1, 1], [1, 1, 1]]]] (some [[7, 8, 9]])
          (some 2)).input_ids
    ∧ TruncatedMask 2 [[[[1, 1, 1], [1, 1, 1], [1, 1, 1]]]]
        (forward_inputs ⟨0, false, 0⟩ [[1, 2, 3]] [[4, 5, 6]]
          [[[[1, 1, 1], [1, 1, 1], [1, 1, 1]]]] (some ([[7, 8, 9]] : Mat ℕ))
          (some 2)).attention_mask := by
  have h := (forward_inputs_curriculum ⟨0, false, 0⟩ [[1, 2, 3]] [[4, 5, 6]]
    [[[[1, 1, 1], [1, 1, 1], [1, 1, 1]]]] (some [[7, 8, 9]]) 2).1 (by decide)
  exact ⟨by decide, h.1, h.2.2.2.2.1⟩

/-- C3 counterexample: on an all-zero loss mask, `CrossEntropy` returns the
non-finite marker `none` (the unguarded `0/0`, a silent NaN); there is no
error outcome — no DegenerateMask signal is raised. -/
theorem crossentropy_degenerate_counterexample :
    CrossEntropy (b := 1) (s := 1) 1 false
        (fun _ _ => fun _ _ => (5 : ℚ)) (fun _ _ => fun _ _ => (5 : ℚ))
        ⟨Dtype.half, 0⟩ (fun _ _ => 0) (fun _ _ => 0) = none := by
  simp [CrossEntropy]

/-- C3 amended: whenever the loss mask sums to zero, `CrossEntropy` returns
NaN (the unguarded division by a zero mask sum, modelled as `none`) rather
than raising any error. -/
theorem crossentropy_degenerate_nan {b s : ℕ} (worldSize : ℕ) (fp16 : Bool)
    (tp sp : Logits → MatF s b ℤ → MatF s b ℚ) (output : Logits)
    (labels : MatF b s ℤ) (loss_mask : MatF b s ℚ)
    (hmask : ∑ i : Fin b, ∑ j : Fin s, loss_mask i j = 0) :
    CrossEntropy worldSize fp16 tp sp output labels loss_mask = none := by
  simp [CrossEntropy, hmask]

/-- Witness for C3 amended on a concrete all-zero mask. -/
theorem crossentropy_degenerate_nan_witness :
    (∑ i : Fin 1, ∑ j : Fin 1, (fun (_ : Fin 1) (_ : Fin 1) => (0 : ℚ)) i j)
        = 0
    ∧ CrossEntropy (b := 1) (s := 1) 3 true (fun _ _ => fun _ _ => (2 : ℚ))
        (fun _ _ => fun _ _ => (4 : ℚ)) ⟨Dtype.float32, 1⟩
        (fun _ _ => 0) (fun _ _ => 0) = none :=
  ⟨by simp, crossentropy_degenerate_nan (b := 1) (s := 1) 3 true _ _ _ _ _
    (by simp)⟩

/-- C10: `CrossEntropy` is independent of the sequence-parallel world size,
the half-precision-loss configuration, and the sequence-parallel primitive;
it applies the tensor-parallel primitive to `.float()`-promoted (float32)
logits, and when the mask sum is nonzero returns the single scalar
`sum(per-token losses * loss_mask) / sum(loss_mask)`. -/
theorem crossentropy_contract {b s : ℕ}
    (worldSize worldSize2 : ℕ) (fp fp2 : Bool)
    (tp sp sp2 : Logits → MatF s b ℤ → MatF s b ℚ)
    (output : Logits) (labels : MatF b s ℤ) (loss_mask : MatF b s ℚ) :
    (CrossEntropy worldSize fp tp sp output labels loss_mask
        = CrossEntropy worldSize2 fp2 tp sp2 output labels loss_mask)
    ∧ (output.contiguous.toFloat).dtype = Dtype.float32
    ∧ ((∑ i : Fin b, ∑ j : Fin s, loss_mask i j) ≠ 0 →
        CrossEntropy worldSize fp tp sp output labels loss_mask
          = some ((∑ i : Fin b, ∑ j : Fin s,
                tp (output.contiguous.toFloat) (transposeF labels) j i
                  * loss_mask i j)
              / (∑ i : Fin b, ∑ j : Fin s, loss_mask i j))) := by
  refine ⟨rfl, rfl, fun hden => ?_⟩
  simp only [CrossEntropy, transposeF]
  rw [if_neg hden]

/-- Witness for C10 on a 1×1 all-ones mask and constant per-token loss 3. -/
theorem crossentropy_contract_witness :
    (∑ i : Fin 1, ∑ j : Fin 1,
        (fun (_ : Fin 1) (_ : Fin 1) => (1 : ℚ)) i j) ≠ 0
    ∧ CrossEntropy (b := 1) (s := 1) 1 false (fun _ _ => fun _ _ => (3 : ℚ))
        (fun _ _ => fun _ _ => (8 : ℚ)) ⟨Dtype.half, 0⟩
        (fun _ _ => 0) (fun _ _ => 1)
      = some ((∑ _i : Fin 1, ∑ _j : Fin 1, (3 : ℚ) * 1)
          / (∑ _i : Fin 1, ∑ _j : Fin 1, (1 : ℚ))) :=
  ⟨by norm_num,
   (crossentropy_contract (b := 1) (s := 1) 1 1 false false
     (fun _ _ => fun _ _ => (3 : ℚ)) (fun _ _ => fun _ _ => (8 : ℚ))
     (fun _ _ => fun _ _ => (8 : ℚ))
     ⟨Dtype.half, 0⟩ (fun _ _ => 0) (fun _ _ => 1)).2.2 (by norm_num)⟩

/-- C2 counterexample: on a rank that post-processes but does not
pre-process, with weights UNTIED, save does not write the head key and load
does not read it; with weights TIED, save does write it — the opposite of
the untied condition the claim states. -/
theorem head_key_counterexample :
    (state_dict_for_save_checkpoint
        ⟨false, true, true, [("weight", SD.tensor 3)]⟩ []).lookup
        wordEmbeddingsForHeadKey = none
    ∧ (state_dict_for_save_checkpoint
        ⟨false, true, false, [("weight", SD.tensor 3)]⟩ []).lookup
        wordEmbeddingsForHeadKey = some (SD.dict [("weight", SD.tensor 3)])
    ∧ load_state_dict ⟨false, true, true, []⟩
        [(wordEmbeddingsForHeadKey, SD.tensor 5)]
      = Except.ok (none, [(wordEmbeddingsForHeadKey, SD.tensor 5)]) :=
  ⟨rfl, rfl, rfl⟩

/-- C2 amended: the head word-embedding key is written by save, and read by
load, exactly when the rank post-processes, does not pre-process, and the
embedding and output weights are tied (shared) — i.e. NOT untied. -/
theorem head_key_tied (m : Model) (lmsd sd : List (String × SD))
    (hmoe : ∀ v, lmsd.lookup moeStateDictKey = some v →
      ∀ kv ∈ v.asDict, kv.1 ≠ wordEmbeddingsForHeadKey) :
    ((m.post_process && !m.pre_process
        && !m.untie_embeddings_and_output_weights) = true →
      (state_dict_for_save_checkpoint m lmsd).lookup wordEmbeddingsForHeadKey
        = some (SD.dict m.word_embeddings_sd))
    ∧ ((m.post_process && !m.pre_process
        && !m.untie_embeddings_and_output_weights) = false →
      (state_dict_for_save_checkpoint m lmsd).lookup wordEmbeddingsForHeadKey
        = none)
    ∧ ((m.post_process && !m.pre_process
        && !m.untie_embeddings_and_output_weights) = false →
      ∀ hl inner, load_state_dict m sd = Except.ok (hl, inner) → hl = none)
    ∧ ((m.post_process && !m.pre_process
        && !m.untie_embeddings_and_output_weights) = true →
      ∀ hl inner, load_state_dict m sd = Except.ok (hl, inner) →
        hl = sd.lookup wordEmbeddingsForHeadKey ∧ hl.isSome = true) := by
  have hbase : ∀ kv ∈ (match lmsd.lookup moeStateDictKey with
      | some moe => (moe.asDict, eraseKey moeStateDictKey lmsd)
      | none => ([], lmsd)).1
        ++ [(languageModelKey,
             SD.dict (match lmsd.lookup moeStateDictKey with
               | some moe => (moe.asDict, eraseKey moeStateDictKey lmsd)
               | none => ([], lmsd)).2)],
      kv.1 ≠ wordEmbeddingsForHeadKey := by
    intro kv hkv
    rcases List.mem_append.mp hkv with hl | hr
    · cases hlk : lmsd.lookup moeStateDictKey with
      | none => rw [hlk] at hl; cases hl
      | some v =>
          rw [hlk] at hl
          exact hmoe v hlk kv hl
    · have : kv.1 = languageModelKey := by
        rcases List.mem_singleton.mp hr with h
        simp [h]
      rw [this]
      decide
  refine ⟨?_, ?_, ?_, ?_⟩
  · intro hcond
    unfold state_dict_for_save_checkpoint
    rw [if_pos hcond, List.lookup_append,
      lookup_eq_none_of_ne _ _ hbase, Option.none_or]
    simp [List.lookup]
  · intro hcond
    unfold state_dict_for_save_checkpoint
    rw [if_neg (by simp [hcond]), lookup_eq_none_of_ne _ _ hbase]
  · intro hcond hl inner h
    unfold load_state_dict at h
    rw [if_neg (by simp [hcond])] at h
    simp only [Except.ok.injEq, Prod.mk.injEq] at h
    exact h.1.symm
  · intro hcond hl inner h
    unfold load_state_dict at h
    rw [if_pos hcond] at h
    cases hlook : sd.lookup wordEmbeddingsForHeadKey with
    | none => rw [hlook] at h; cases h
    | some v =>
        rw [hlook] at h
        simp only [Except.ok.injEq, Prod.mk.injEq] at h
        exact ⟨h.1.symm, by rw [← h.1]; rfl⟩

/-- Witness for C2 amended on a tied post-process-only rank. -/
theorem head_key_tied_witness :
    (state_dict_for_save_checkpoint
        ⟨false, true, false, [("w", SD.tensor 1)]⟩ []).lookup
        wordEmbeddingsForHeadKey = some (SD.dict [("w", SD.tensor 1)])
    ∧ ((some (SD.tensor 5) : Option SD)
          = ([(wordEmbeddingsForHeadKey, SD.tensor 5)] :
              List (String × SD)).lookup wordEmbeddingsForHeadKey
        ∧ (some (SD.tensor 5) : Option SD).isSome = true) := by
  have h := head_key_tied ⟨false, true, false, [("w", SD.tensor 1)]⟩ []
    [(wordEmbeddingsForHeadKey, SD.tensor 5)]
    (by intro v hv; simp at hv)
  exact ⟨h.1 rfl, h.2.2.2 rfl (some (SD.tensor 5))
    [(wordEmbeddingsForHeadKey, SD.tensor 5)] rfl⟩

/-- C4: saving and then loading on the same instance reproduces the
parameter tree: the expert-marked entries hoisted out of `moe_state_dict` by
save are collected back by load and reinserted under a single
`moe_state_dict` entry of the inner language-model dict (which therefore
looks up identically to the one that was saved), and the head-embedding
sub-state saved under its fixed key is loaded back exactly when it was
saved.  Hypothesis: every `moe_state_dict` entry carries the expert marker
and is not a gate weight (the DeepSpeed MoE naming convention), and the MoE
dict, when present, is nonempty. -/
theorem checkpoint_round_trip (m : Model) (lmsd : List (String × SD))
    (hmoe : ∀ v, lmsd.lookup moeStateDictKey = some v →
      ∃ es, v = SD.dict es ∧ es ≠ []
        ∧ ∀ kv ∈ es, strContains expertMarker kv.1 = true
            ∧ strContains gateKeyMarker kv.1 = false) :
    ∃ inner,
      load_state_dict m (state_dict_for_save_checkpoint m lmsd)
        = Except.ok
            ((if (m.post_process && !m.pre_process
                && !m.untie_embeddings_and_output_weights) = true
              then some (SD.dict m.word_embeddings_sd) else none), inner)
      ∧ ∀ k, inner.lookup k = lmsd.lookup k := by
  cases hlk : lmsd.lookup moeStateDictKey with
  | none =>
      refine ⟨lmsd, ?_, fun k => rfl⟩
      cases hcond : (m.post_process && !m.pre_process
          && !m.untie_embeddings_and_output_weights) with
      | false =>
          have hsave : state_dict_for_save_checkpoint m lmsd
              = [(languageModelKey, SD.dict lmsd)] := by
            unfold state_dict_for_save_checkpoint
            rw [hlk, if_neg (by simp [hcond])]
            rfl
          rw [hsave]
          unfold load_state_dict
          rw [if_neg (by simp [hcond])]
          simp [List.filter_cons, isExpertEntry_lm, List.lookup, SD.asDict]
      | true =>
          have hsave : state_dict_for_save_checkpoint m lmsd
              = [(languageModelKey, SD.dict lmsd)]
                ++ [(wordEmbeddingsForHeadKey,
                     SD.dict m.word_embeddings_sd)] := by
            unfold state_dict_for_save_checkpoint
            rw [hlk, if_pos hcond]
            rfl
          rw [hsave]
          unfold load_state_dict
          rw [if_pos hcond]
          have hlook : ([(languageModelKey, SD.dict lmsd)]
              ++ [(wordEmbeddingsForHeadKey, SD.dict m.word_embeddings_sd)]
              : List (String × SD)).lookup wordEmbeddingsForHeadKey
              = some (SD.dict m.word_embeddings_sd) := by
            have hne : (wordEmbeddingsForHeadKey == languageModelKey)
                = false := by decide
            simp [List.lookup, hne]
          rw [hlook]
          simp [List.filter_cons, List.filter_append, isExpertEntry_lm,
            isExpertEntry_head, List.lookup, SD.asDict,
            beq_self_eq_true]
  | some v =>
      obtain ⟨es, rfl, hne, hprops⟩ := hmoe v hlk
      have hes_true : ∀ kv ∈ es, isExpertEntry kv = true := fun kv hkv => by
        simp [isExpertEntry, (hprops kv hkv).1, (hprops kv hkv).2]
      have hfil_self : es.filter isExpertEntry = es :=
        List.filter_eq_self.mpr hes_true
      have hfil_nil : es.filter (fun kv => !(isExpertEntry kv)) = [] := by
        rw [List.filter_eq_nil_iff]
        intro kv hkv
        simp [hes_true kv hkv]
      have hes_ne_head : ∀ kv ∈ es, kv.1 ≠ wordEmbeddingsForHeadKey :=
        fun kv hkv => strContains_expert_ne_head kv.1 (hprops kv hkv).1
      have hlen : 0 < es.length := List.length_pos.mpr hne
      have hsetKey : setKey moeStateDictKey (SD.dict es)
          (eraseKey moeStateDictKey lmsd)
          = eraseKey moeStateDictKey lmsd ++ [(moeStateDictKey, SD.dict es)]
          := by
        unfold setKey
        rw [lookup_eraseKey_self]
        rfl
      have hfinal : ∀ k,
          (eraseKey moeStateDictKey lmsd
            ++ [(moeStateDictKey, SD.dict es)]).lookup k = lmsd.lookup k := by
        intro k
        by_cases hk : k = moeStateDictKey
        · subst hk
          rw [List.lookup_append, lookup_eraseKey_self, Option.none_or, hlk]
          simp [List.lookup]
        · have h1 : ([(moeStateDictKey, SD.dict es)] :
              List (String × SD)).lookup k = none := by
            refine lookup_eq_none_of_ne _ _ fun kv hkv => ?_
            rw [List.mem_singleton.mp hkv]
            exact fun h => hk h.symm
          rw [List.lookup_append, lookup_eraseKey_ne _ _ _ hk, h1,
            Option.or_none]
      refine ⟨eraseKey moeStateDictKey lmsd ++ [(moeStateDictKey, SD.dict es)],
        ?_, hfinal⟩
      cases hcond : (m.post_process && !m.pre_process
          && !m.untie_embeddings_and_output_weights) with
      | false =>
          have hsave : state_dict_for_save_checkpoint m lmsd
              = es ++ [(languageModelKey,
                  SD.dict (eraseKey moeStateDictKey lmsd))] := by
            unfold state_dict_for_save_checkpoint
            rw [hlk, if_neg (by simp [hcond])]
            rfl
          rw [hsave]
          unfold load_state_dict
          rw [if_neg (by simp [hcond])]
          simp only [List.filter_append, hfil_self, hfil_nil,
            List.filter_cons, isExpertEntry_lm, Bool.not_false,
            List.filter_nil, List.nil_append, List.append_nil,
            Bool.false_eq_true, ite_false, ite_true]
          have hlookup : ([(languageModelKey,
              SD.dict (eraseKey moeStateDictKey lmsd))]
              : List (String × SD)).lookup languageModelKey
              = some (SD.dict (eraseKey moeStateDictKey lmsd)) := by
            simp [List.lookup]
          rw [hlookup]
          simp only [SD.asDict, if_pos hlen, hsetKey]
      | true =>
          have hsave : state_dict_for_save_checkpoint m lmsd
              = es ++ [(languageModelKey,
                  SD.dict (eraseKey moeStateDictKey lmsd))]
                ++ [(wordEmbeddingsForHeadKey,
                     SD.dict m.word_embeddings_sd)] := by
            unfold state_dict_for_save_checkpoint
            rw [hlk, if_pos hcond]
            rfl
          rw [hsave]
          unfold load_state_dict
          rw [if_pos hcond]
          have hlookhead : ((es ++ [(languageModelKey,
              SD.dict (eraseKey moeStateDictKey lmsd))])
              ++ [(wordEmbeddingsForHeadKey, SD.dict m.word_embeddings_sd)]
              : List (String × SD)).lookup wordEmbeddingsForHeadKey
              = some (SD.dict m.word_embeddings_sd) := by
            rw [List.lookup_append, List.lookup_append,
              lookup_eq_none_of_ne _ _ hes_ne_head]
            have hne2 : (wordEmbeddingsForHeadKey == languageModelKey)
                = false := by decide
            simp [List.lookup, hne2]
          rw [hlookhead]
          simp only [List.filter_append, hfil_self, hfil_nil,
            List.filter_cons, isExpertEntry_lm, isExpertEntry_head,
            Bool.not_false, List.filter_nil, List.nil_append,
            List.append_nil, Bool.false_eq_true, ite_false, ite_true]
          have hlookup : (([(languageModelKey,
              SD.dict (eraseKey moeStateDictKey lmsd))]
              ++ [(wordEmbeddingsForHeadKey, SD.dict m.word_embeddings_sd)])
              : List (String × SD)).lookup languageModelKey
              = some (SD.dict (eraseKey moeStateDictKey lmsd)) := by
            simp [List.lookup]
          rw [hlookup]
          simp only [SD.asDict, if_pos hlen, hsetKey]

/-- Witness for C4 on a concrete model with one expert entry and tied
weights on a post-process-only rank. -/
theorem checkpoint_round_trip_witness :
    ∃ inner,
      load_state_dict ⟨false, true, false, [("w", SD.tensor 1)]⟩
          (state_dict_for_save_checkpoint
            ⟨false, true, false, [("w", SD.tensor 1)]⟩
            [("encoder", SD.tensor 2),
             ("moe_state_dict", SD.dict [("layer.expert.0", SD.tensor 3)])])
        = Except.ok
            ((if ((true : Bool) && !(false : Bool) && !(false : Bool)) = true
              then some (SD.dict [("w", SD.tensor 1)]) else none), inner)
      ∧ ∀ k, inner.lookup k
          = ([("encoder", SD.tensor 2),
              ("moe_state_dict",
               SD.dict [("layer.expert.0", SD.tensor 3)])] :
              List (String × SD)).lookup k := by
  refine checkpoint_round_trip ⟨false, true, false, [("w", SD.tensor 1)]⟩
    [("encoder", SD.tensor 2),
     ("moe_state_dict", SD.dict [("layer.expert.0", SD.tensor 3)])]
    (fun v hv => ?_)
  refine ⟨[("layer.expert.0", SD.tensor 3)], ?_, by simp, ?_⟩
  · have : v = SD.dict [("layer.expert.0", SD.tensor 3)] := by
      rw [show ([("encoder", SD.tensor 2),
        ("moe_state_dict", SD.dict [("layer.expert.0", SD.tensor 3)])] :
          List (String × SD)).lookup moeStateDictKey
        = some (SD.dict [("layer.expert.0", SD.tensor 3)]) from rfl] at hv
      exact (Option.some.injEq .. ▸ hv).symm
    exact this
  · intro kv hkv
    rw [List.mem_singleton.mp hkv]
    exact ⟨by decide, by decide⟩

end ChatGLM3
